import Mathlib

/-!
Verification of the aggregation-and-ranking core of the
terrorism-data-analyze repository.

The scripts of the repository share one pipeline: rename raw columns, coerce
the casualty columns to numbers (filling failures with 0), derive time
buckets (decade, season), group by a categorical dimension, cross-tabulate
with row normalization, join counts against an external population lookup,
and rank.  The definitions below are a shallow embedding of those
operations: a pandas DataFrame becomes a `List Row`, a column becomes a
field of `Row`, elementwise column assignments become `List.map` of a
per-row update, filters become `List.filter`, `groupby`/`value_counts`
become dedup-and-count, `pd.crosstab(..., normalize="index")` becomes the
rational `row_pct` function, `nlargest`/`sort_values` become
`List.insertionSort` under an explicit order, and the population side
effects of the `countryinfo` package become an explicit `db` argument
returning either a population or one of the two caught error kinds.
Numbers are modelled as `ℚ` (all the arithmetic involved is exact).
-/

/-- One raw cell of a pandas column: a number, a non-numeric string, or a
missing value (NaN). -/
inductive RawValue
  | num (q : ℚ)
  | str (s : String)
  | na
deriving DecidableEq, Inhabited

/-- Model of `pd.to_numeric(x, errors="coerce")` on one cell: numbers pass,
anything that fails numeric coercion (strings, missing values) becomes
NaN, modelled as `none`. -/
def toNumericCoerce : RawValue → Option ℚ
  | .num q => some q
  | .str _ => none
  | .na => none

/-- Model of `pd.to_numeric(x, errors="coerce").fillna(0)` on one cell. -/
def coerceFill (v : RawValue) : ℚ := (toNumericCoerce v).getD 0

/-- One record of the normalized table, after the column renaming shared by
the scripts (`iyear → Year`, `nkill → Killed`, ...).  The derived columns
(`Casualties`, `Decade`, `Decade_Label`, `Season`) are `Option`-valued:
`none` means the column has not been added to the frame. -/
structure Row where
  year : Int
  month : Int
  day : Int
  country : String
  region : String
  attackType : String
  targetType : String
  weaponType : String
  group : String
  killed : RawValue
  wounded : RawValue
  casualties : Option ℚ := none
  decade : Option Int := none
  decadeLabel : Option String := none
  season : Option String := none
deriving DecidableEq, Inhabited

/-- The two casualty-coercion assignments
`df["Killed"] = pd.to_numeric(df["Killed"], errors="coerce").fillna(0)` and
the same for `Wounded`, applied to one row. -/
def coerce_row (r : Row) : Row :=
  { r with killed := .num (coerceFill r.killed), wounded := .num (coerceFill r.wounded) }

/-- The casualty-coercion block shared by `seasonal_patterns.prepare_data`
(lines 47-48), `decade_comparison.prepare_data` (lines 46-47),
`group_analysis.prepare_data` (lines 47-48) and
`kazakhstan_rankings.rank_countries_by_metric` (lines 28-29). -/
def normalize_casualties (df : List Row) : List Row := df.map coerce_row

/-- Model of `get_season` from `seasonal_patterns.prepare_data`. -/
def get_season (month : Int) : String :=
  if month = 12 ∨ month = 1 ∨ month = 2 then "Winter"
  else if month = 3 ∨ month = 4 ∨ month = 5 then "Spring"
  else if month = 6 ∨ month = 7 ∨ month = 8 then "Summer"
  else "Autumn"

/-- Model of `seasonal_patterns.prepare_data`: coerce casualties, drop rows with
`Month == 0` (unknown month), and add the `Season` column on the surviving
rows. -/
def prepare_data_seasonal (df : List Row) : List Row :=
  ((normalize_casualties df).filter fun r => 0 < r.month).map
    fun r => { r with season := some (get_season r.month) }

/-- The decade derivation of `decade_comparison.prepare_data`:
`Decade = (Year // 10) * 10`, `Decade_Label = str(Decade) + "s"`
(Python `//` is floor division, hence `Int.fdiv`). -/
def decade_row (r : Row) : Row :=
  { r with decade := some (r.year.fdiv 10 * 10),
           decadeLabel := some (toString (r.year.fdiv 10 * 10) ++ "s") }

/-- Model of `decade_comparison.prepare_data`: coerce casualties, derive decade. -/
def prepare_data_decade (df : List Row) : List Row :=
  (normalize_casualties df).map decade_row

/-- The derivation `df["Casualties"] = df["Killed"] + df["Wounded"]` of
`group_analysis.prepare_data`, applied after the coercion (so `killed` and
`wounded` hold `.num` values and `coerceFill` just reads them back). -/
def casualties_col_row (r : Row) : Row :=
  { r with casualties := some (coerceFill r.killed + coerceFill r.wounded) }

/-- Model of `group_analysis.prepare_data`: coerce casualties, derive `Casualties`. -/
def prepare_data_group (df : List Row) : List Row :=
  (normalize_casualties df).map casualties_col_row

/-- Distinct keys in ascending order: the key order produced by pandas
`groupby` (which sorts group keys by default). -/
def sorted_keys (l : List String) : List String :=
  l.dedup.insertionSort (· ≤ ·)

/-- Model of `df.groupby(f).size()` (also the counting core of
`df[col].value_counts()`): one row per distinct key, with the number of
records mapped to that key. -/
def groupby_size (df : List Row) (f : Row → String) : List (String × ℕ) :=
  (sorted_keys (df.map f)).map fun k => (k, (df.map f).count k)

/-- Model of `series.value_counts()`: counts per distinct value, sorted by count
descending (`insertionSort` is stable, so tied counts keep their
pre-sort order, as pandas does). -/
def value_counts (l : List String) : List (String × ℕ) :=
  (l.dedup.map fun k => (k, l.count k)).insertionSort fun a b => b.2 ≤ a.2

/-- Model of `df.groupby(key)[val].sum()` with the pandas ascending key order. -/
def groupby_sum (df : List Row) (key : Row → String) (val : Row → ℚ) :
    List (String × ℚ) :=
  (sorted_keys (df.map key)).map fun k =>
    (k, ((df.filter fun r => key r == k).map val).sum)

/-- One cell of `pd.crosstab(rowField, colField)`: the number of records
with the given (row key, column key) pair. -/
def crosstab_count (df : List Row) (rowF colF : Row → String) (r c : String) : ℕ :=
  (df.filter fun x => rowF x == r && colF x == c).length

/-- A crosstab row total: the number of records with the given row key. -/
def row_total (df : List Row) (rowF : Row → String) (r : String) : ℕ :=
  (df.filter fun x => rowF x == r).length

/-- One cell of `pd.crosstab(rowField, colField, normalize="index") * 100`
(`decade_comparison.analyze_attack_type_evolution` lines 151-153) and of
`pivot.div(pivot.sum(axis=1), axis=0) * 100`
(`seasonal_patterns.analyze_regional_seasonal_patterns` lines 196-197):
the cell count as a percentage of its row total.  A row key that occurs in
the data always has a nonzero total; for a row key with total 0 the
quotient is 0 by the `ℚ` division convention, which matches the
demand of the specification that an unobserved row queried from the sparse
table resolves to all-zero percentages. -/
def row_pct (df : List Row) (rowF colF : Row → String) (r c : String) : ℚ :=
  (crosstab_count df rowF colF r c : ℚ) / (row_total df rowF r : ℚ) * 100

/-- The distinct column keys of the crosstab. -/
def col_keys (df : List Row) (colF : Row → String) : List String :=
  (df.map colF).dedup

/-- The sum of the percentages of one crosstab row across all columns. -/
def row_pct_sum (df : List Row) (rowF colF : Row → String) (r : String) : ℚ :=
  ((col_keys df colF).map fun c => row_pct df rowF colF r c).sum

/-- The outcome of `CountryInfo(name).population()`: either a population or
one of the two exception kinds the scripts catch. -/
inductive DbResult
  | ok (p : ℚ)
  | keyError
  | valueError
deriving DecidableEq

/-- The `try ... except (KeyError, ValueError): return None` wrapper around
one database call. -/
def lookup_db (db : String → DbResult) (n : String) : Option ℚ :=
  match db n with
  | .ok p => some p
  | .keyError => none
  | .valueError => none

/-- Model of `get_population` from `rank_per_capita.py` (lines 16-32): rewrite the
two aliases, answer the West Bank and Gaza Strip from a fixed constant
without touching the database, otherwise look the name up and turn a
KeyError or ValueError into `None`. -/
def get_population (db : String → DbResult) (name : String) : Option ℚ :=
  if name = "Russia" then lookup_db db "Russian Federation"
  else if name = "South Korea" then lookup_db db "Korea, Republic of"
  else if name = "West Bank and Gaza Strip" then some 5044000
  else lookup_db db name

/-- The per-capita join of `rank_by_attacks_per_capita`:
the column assignment applying `get_population` per country followed by
`dropna` on the population column — entities whose lookup fails are dropped. -/
def attacks_with_population (counts : List (String × ℕ)) (pop : String → Option ℚ) :
    List (String × ℕ × ℚ) :=
  counts.filterMap fun cn => (pop cn.1).map fun p => (cn.1, cn.2, p)

/-- The rate assignment `(AttackCount / Population) * 1000000` over the
joined table; this is also the computation of `analyze_per_capita.py`
lines 45-49. -/
def attacks_per_million (counts : List (String × ℕ)) (pop : String → Option ℚ) :
    List (String × ℚ) :=
  (attacks_with_population counts pop).map fun t => (t.1, (t.2.1 : ℚ) / t.2.2 * 1000000)

/-- Model of `sort_values(by=metric, ascending=False)` over a one-metric aggregate
table (stable). -/
def sort_desc (agg : List (String × ℚ)) : List (String × ℚ) :=
  agg.insertionSort fun a b => b.2 ≤ a.2

/-- Model of `rank_by_attacks_per_capita` from `rank_per_capita.py` (lines 34-51):
count attacks per country, join populations, drop the misses, rate per
million, sort descending by rate. -/
def rank_by_attacks_per_capita (df : List Row) (db : String → DbResult) :
    List (String × ℚ) :=
  sort_desc (attacks_per_million (value_counts (df.map (·.country)))
    fun c => get_population db c)

/-- Model of `.head(n)` of the metric-sorted table: the top-n rows. -/
def top_head (agg : List (String × ℚ)) (n : ℕ) : List (String × ℚ) :=
  (sort_desc agg).take n

/-- The rank query of `rank_per_capita.py` lines 65-72:
`ranking.index.get_loc(matching_row) + 1`, i.e. the 1-based position of the
entity in the full descending-by-metric order, `none` if the entity is
absent. -/
def rankOf (agg : List (String × ℚ)) (e : String) : Option ℕ :=
  ((sort_desc agg).findIdx? fun x => x.1 == e).map (· + 1)

/-- The order imposed by `groupby` (keys ascending) followed by
`nlargest(n, metric)` (`group_analysis.analyze_most_active_groups` line
80): primary metric descending — or ascending when requested — and tied
metric values resolved by key in ascending lexicographic order, because
`nlargest` keeps earlier rows first and `groupby` emits keys sorted. -/
def tbLe (asc : Bool) (a b : String × ℚ) : Prop :=
  (if asc then a.2 < b.2 else b.2 < a.2) ∨ (a.2 = b.2 ∧ a.1 ≤ b.1)

instance (asc : Bool) : DecidableRel (tbLe asc) := fun a b => by
  unfold tbLe; infer_instance

instance (asc : Bool) : IsTotal (String × ℚ) (tbLe asc) where
  total a b := by
    unfold tbLe
    rcases lt_trichotomy a.2 b.2 with h | h | h
    · cases asc with
      | false => exact Or.inr (Or.inl h)
      | true => exact Or.inl (Or.inl h)
    · rcases le_total a.1 b.1 with hk | hk
      · exact Or.inl (Or.inr ⟨h, hk⟩)
      · exact Or.inr (Or.inr ⟨h.symm, hk⟩)
    · cases asc with
      | false => exact Or.inl (Or.inl h)
      | true => exact Or.inr (Or.inl h)

instance (asc : Bool) : IsTrans (String × ℚ) (tbLe asc) where
  trans a b c hab hbc := by
    unfold tbLe at *
    cases asc with
    | false =>
      simp only [if_neg (by simp : ¬ (false = true))] at *
      rcases hab with h1 | ⟨h1, k1⟩ <;> rcases hbc with h2 | ⟨h2, k2⟩
      · exact Or.inl (h2.trans h1)
      · exact Or.inl (lt_of_eq_of_lt h2.symm h1)
      · exact Or.inl (lt_of_lt_of_eq h2 h1.symm)
      · exact Or.inr ⟨h1.trans h2, k1.trans k2⟩
    | true =>
      simp only [if_pos rfl] at *
      rcases hab with h1 | ⟨h1, k1⟩ <;> rcases hbc with h2 | ⟨h2, k2⟩
      · exact Or.inl (h1.trans h2)
      · exact Or.inl (lt_of_lt_of_eq h1 h2)
      · exact Or.inl (lt_of_eq_of_lt h1 h2)
      · exact Or.inr ⟨h1.trans h2, k1.trans k2⟩

/-- Model of `topN`: sort by the metric (descending unless `asc`), ties resolved by
key, take the first `n` rows — the composite behavior of `groupby` +
`nlargest(n, metric)` at `group_analysis.py` line 80. -/
def topN (asc : Bool) (agg : List (String × ℚ)) (n : ℕ) : List (String × ℚ) :=
  (agg.insertionSort (tbLe asc)).take n

/-- Model of `rank_countries_by_metric` from `kazakhstan_rankings.py` (lines 19-41).
The pandas function mutates its argument when `metric == "Casualties"`
(in-place coercion of `Killed`/`Wounded` and addition of the `Casualties`
column), so the model returns the post-call state of the frame of the caller as
the first component and the ranking (or `none` for an unsupported metric)
as the second. -/
def rank_countries_by_metric (df : List Row) (metric : String) (ascending : Bool) :
    List Row × Option (List (String × ℚ)) :=
  if metric = "Attacks" then
    (df, some ((value_counts (df.map (·.country))).map fun kc => (kc.1, (kc.2 : ℚ))))
  else if metric = "Casualties" then
    let df2 := df.map fun r => casualties_col_row (coerce_row r)
    (df2, some ((groupby_sum df2 (·.country) fun r => r.casualties.getD 0).insertionSort
      fun a b => if ascending then a.2 ≤ b.2 else b.2 ≤ a.2))
  else (df, none)

/-- A sample record builder used by the concrete witness evaluations. -/
def mkRow (m : Int) (c : String) (k w : RawValue) : Row :=
  { year := 2001, month := m, day := 1, country := c, region := "R",
    attackType := "T", targetType := "TT", weaponType := "W", group := "G",
    killed := k, wounded := w }

/-! ### Helper lemmas -/

theorem getD_map_of_lt (f : Row → Row) (df : List Row) (i : ℕ) (hi : i < df.length) :
    (df.map f).getD i default = f (df.getD i default) := by
  rw [List.getD_eq_getElem (df.map f) default (by simpa using hi),
    List.getD_eq_getElem df default hi]
  simp

theorem get_season_winter : ∀ m : Int, m = 12 ∨ m = 1 ∨ m = 2 → get_season m = "Winter" := by
  rintro m (rfl | rfl | rfl) <;> decide

theorem get_season_spring : ∀ m : Int, m = 3 ∨ m = 4 ∨ m = 5 → get_season m = "Spring" := by
  rintro m (rfl | rfl | rfl) <;> decide

theorem get_season_summer : ∀ m : Int, m = 6 ∨ m = 7 ∨ m = 8 → get_season m = "Summer" := by
  rintro m (rfl | rfl | rfl) <;> decide

theorem get_season_autumn : ∀ m : Int, m = 9 ∨ m = 10 ∨ m = 11 → get_season m = "Autumn" := by
  rintro m (rfl | rfl | rfl) <;> decide

/-! ### Claim theorems -/

/-- Claim C10: for every country name, `get_population` returns a number or
`None` and never propagates an exception: a KeyError or ValueError from the
country database yields `None`, the aliases Russia and South Korea are
rewritten to their canonical names before the lookup, and West Bank and
Gaza Strip answers the fixed constant 5044000 for every database. -/
theorem get_population_total_and_aliased :
    ∀ db : String → DbResult,
      get_population db "West Bank and Gaza Strip" = some 5044000
      ∧ (∀ p, db "Russian Federation" = .ok p → get_population db "Russia" = some p)
      ∧ (db "Russian Federation" = .keyError ∨ db "Russian Federation" = .valueError →
          get_population db "Russia" = none)
      ∧ (∀ p, db "Korea, Republic of" = .ok p → get_population db "South Korea" = some p)
      ∧ (db "Korea, Republic of" = .keyError ∨ db "Korea, Republic of" = .valueError →
          get_population db "South Korea" = none)
      ∧ ∀ name, name ≠ "Russia" → name ≠ "South Korea" →
          name ≠ "West Bank and Gaza Strip" →
          (∀ p, db name = .ok p → get_population db name = some p)
          ∧ (db name = .keyError ∨ db name = .valueError →
              get_population db name = none) := by
  intro db
  refine ⟨by simp [get_population], ?_, ?_, ?_, ?_, ?_⟩
  · intro p hp; simp [get_population, lookup_db, hp]
  · rintro (h | h) <;> simp [get_population, lookup_db, h]
  · intro p hp; simp [get_population, lookup_db, hp]
  · rintro (h | h) <;> simp [get_population, lookup_db, h]
  · intro name h1 h2 h3
    refine ⟨fun p hp => ?_, fun h => ?_⟩
    · simp [get_population, lookup_db, h1, h2, h3, hp]
    · rcases h with h | h <;> simp [get_population, lookup_db, h1, h2, h3, h]

/-- Witness for C10 at a concrete database. -/
theorem get_population_total_and_aliased_witness :
    ((fun n => if n = "Russian Federation" then DbResult.ok 144000000
        else DbResult.keyError) "Russian Federation" = DbResult.ok 144000000)
    ∧ get_population
        (fun n => if n = "Russian Federation" then DbResult.ok 144000000
          else DbResult.keyError) "Russia" = some 144000000 :=
  ⟨by decide, (get_population_total_and_aliased
      (fun n => if n = "Russian Federation" then DbResult.ok 144000000
        else DbResult.keyError)).2.1 144000000 (by decide)⟩

/-- Claim C6: the casualty coercion turns every `Killed`/`Wounded` value
that fails numeric coercion (including absence) into 0 and keeps every
already-numeric value; no row is dropped and no error is raised, so the
normalized table has exactly as many rows as the input. -/
theorem coercion_fills_failures_with_zero :
    ∀ df : List Row,
      (normalize_casualties df).length = df.length
      ∧ ∀ i, i < df.length →
          (toNumericCoerce (df.getD i default).killed = none →
            ((normalize_casualties df).getD i default).killed = .num 0)
          ∧ (∀ q, toNumericCoerce (df.getD i default).killed = some q →
            ((normalize_casualties df).getD i default).killed = .num q)
          ∧ (toNumericCoerce (df.getD i default).wounded = none →
            ((normalize_casualties df).getD i default).wounded = .num 0)
          ∧ (∀ q, toNumericCoerce (df.getD i default).wounded = some q →
            ((normalize_casualties df).getD i default).wounded = .num q) := by
  intro df
  refine ⟨by simp [normalize_casualties], fun i hi => ?_⟩
  have hm : (normalize_casualties df).getD i default = coerce_row (df.getD i default) :=
    getD_map_of_lt coerce_row df i hi
  rw [hm]
  refine ⟨fun h => ?_, fun q h => ?_, fun h => ?_, fun q h => ?_⟩ <;>
    · simp only [coerce_row, coerceFill, h]
      rfl

/-- Witness for C6 on a one-row table whose `Killed` is a non-numeric
string and whose `Wounded` is the number 7. -/
theorem coercion_fills_failures_with_zero_witness :
    (0 < ([⟨2001, 5, 1, "A", "R", "T", "TT", "W", "G", .str "bad", .num 7,
        none, none, none, none⟩] : List Row).length)
    ∧ toNumericCoerce (([⟨2001, 5, 1, "A", "R", "T", "TT", "W", "G", .str "bad", .num 7,
        none, none, none, none⟩] : List Row).getD 0 default).killed = none
    ∧ ((normalize_casualties [⟨2001, 5, 1, "A", "R", "T", "TT", "W", "G", .str "bad",
        .num 7, none, none, none, none⟩]).getD 0 default).killed = .num 0 :=
  ⟨by decide, by decide,
    ((coercion_fills_failures_with_zero
      [⟨2001, 5, 1, "A", "R", "T", "TT", "W", "G", .str "bad", .num 7,
        none, none, none, none⟩]).2 0 (by decide)).1 (by decide)⟩

/-- Claim C9: schema normalization is idempotent: re-running the
`prepare_data` normalization (with its identity field renaming, which the
fixed record schema realizes as the identity) on its own output changes
nothing — coercion and fill leave already-numeric values unchanged, and the
derived decade, decade label and casualties columns recompute to the same
values. -/
theorem prepare_data_idempotent :
    ∀ df : List Row,
      prepare_data_decade (prepare_data_decade df) = prepare_data_decade df
      ∧ prepare_data_group (prepare_data_group df) = prepare_data_group df := by
  intro df
  constructor <;>
    · simp only [prepare_data_decade, prepare_data_group, normalize_casualties,
        List.map_map]
      exact List.map_congr_left fun a _ => rfl

/-- Claim C7: every row of the season-prepared table has `month > 0` (rows
with month 0 are excluded, never given a default season), and the season
column maps months 12/1/2 to Winter, 3/4/5 to Spring, 6/7/8 to Summer and
9/10/11 to Autumn. -/
theorem season_defined_only_for_known_month :
    ∀ (df : List Row) (r : Row), r ∈ prepare_data_seasonal df →
      0 < r.month
      ∧ ((r.month = 12 ∨ r.month = 1 ∨ r.month = 2) → r.season = some "Winter")
      ∧ ((r.month = 3 ∨ r.month = 4 ∨ r.month = 5) → r.season = some "Spring")
      ∧ ((r.month = 6 ∨ r.month = 7 ∨ r.month = 8) → r.season = some "Summer")
      ∧ ((r.month = 9 ∨ r.month = 10 ∨ r.month = 11) → r.season = some "Autumn") := by
  intro df r hr
  simp only [prepare_data_seasonal, List.mem_map, List.mem_filter,
    decide_eq_true_eq] at hr
  obtain ⟨x, ⟨_, hxm⟩, rfl⟩ := hr
  refine ⟨hxm, fun h => ?_, fun h => ?_, fun h => ?_, fun h => ?_⟩
  · simpa using congrArg some (get_season_winter x.month h)
  · simpa using congrArg some (get_season_spring x.month h)
  · simpa using congrArg some (get_season_summer x.month h)
  · simpa using congrArg some (get_season_autumn x.month h)

/-- Witness for C7 on a one-row table with month 5 (Spring). -/
theorem season_defined_only_for_known_month_witness :
    (({ mkRow 5 "A" (.num 1) (.num 0) with season := some (get_season 5) } : Row)
      ∈ prepare_data_seasonal [mkRow 5 "A" (.num 1) (.num 0)])
    ∧ ((5 : Int) = 3 ∨ (5 : Int) = 4 ∨ (5 : Int) = 5)
    ∧ ({ mkRow 5 "A" (.num 1) (.num 0) with season := some (get_season 5) } : Row).season
        = some "Spring" :=
  ⟨by decide, by decide,
    (season_defined_only_for_known_month [mkRow 5 "A" (.num 1) (.num 0)]
      { mkRow 5 "A" (.num 1) (.num 0) with season := some (get_season 5) }
      (by decide)).2.2.1 (by decide)⟩

/-- Claim C1: the per-capita normalization produces a row only for entities
whose population lookup succeeds — an entity with no population entry is
dropped, never given rate 0 or infinity; the rate of every retained entity is
(count / population) * 1000000; and the output has at most as many rows as
the input. -/
theorem per_capita_drops_missing_population :
    ∀ (counts : List (String × ℕ)) (pop : String → Option ℚ),
      (∀ c, pop c = none → c ∉ (attacks_per_million counts pop).map Prod.fst)
      ∧ (∀ x, x ∈ attacks_per_million counts pop →
          ∃ n p, (x.1, n) ∈ counts ∧ pop x.1 = some p ∧ x.2 = (n : ℚ) / p * 1000000)
      ∧ (attacks_per_million counts pop).length ≤ counts.length := by
  intro counts pop
  refine ⟨?_, ?_, ?_⟩
  · intro c hc hmem
    simp only [attacks_per_million, attacks_with_population, List.map_map,
      List.mem_map, List.mem_filterMap, Function.comp, Option.map_eq_some'] at hmem
    obtain ⟨t, ⟨cn, _, p, hp, rfl⟩, hfst⟩ := hmem
    simp only at hfst
    rw [hfst] at hp
    rw [hc] at hp
    exact Option.noConfusion hp
  · intro x hx
    simp only [attacks_per_million, attacks_with_population, List.mem_map,
      List.mem_filterMap, Option.map_eq_some'] at hx
    obtain ⟨t, ⟨cn, hcn, p, hp, rfl⟩, rfl⟩ := hx
    exact ⟨cn.2, p, by simpa using hcn, hp, rfl⟩
  · calc (attacks_per_million counts pop).length
        = (attacks_with_population counts pop).length := by
          simp [attacks_per_million]
      _ ≤ counts.length := List.length_filterMap_le _ _

/-- Witness for C1: population {A ↦ 2000000}, counts {A ↦ 2, B ↦ 1};
the rate of A is 1 per million and B is dropped. -/
theorem per_capita_drops_missing_population_witness :
    ((fun c => if c = "A" then some (2000000 : ℚ) else none) "B" = none)
    ∧ "B" ∉ (attacks_per_million [("A", 2), ("B", 1)]
        (fun c => if c = "A" then some (2000000 : ℚ) else none)).map Prod.fst :=
  ⟨by decide,
    (per_capita_drops_missing_population [("A", 2), ("B", 1)]
      (fun c => if c = "A" then some (2000000 : ℚ) else none)).1 "B" (by decide)⟩

/-- Claim C3: grouping with the count metric yields one row per distinct
key; the count of each row is the number of records mapped to that key; and the
counts over all rows sum to the size of the input table. -/
theorem aggregate_count_partition :
    ∀ (df : List Row) (f : Row → String),
      ((groupby_size df f).map Prod.fst).Nodup
      ∧ (∀ k, k ∈ (groupby_size df f).map Prod.fst ↔ k ∈ df.map f)
      ∧ (∀ kc, kc ∈ groupby_size df f →
          kc.2 = (df.filter fun r => f r == kc.1).length)
      ∧ ((groupby_size df f).map Prod.snd).sum = df.length := by
  intro df f
  have hkeys : (groupby_size df f).map Prod.fst = sorted_keys (df.map f) := by
    rw [groupby_size, List.map_map]
    exact (List.map_congr_left fun a _ => rfl).trans (List.map_id _)
  have hperm : (sorted_keys (df.map f)).Perm (df.map f).dedup :=
    List.perm_insertionSort _ _
  refine ⟨?_, ?_, ?_, ?_⟩
  · rw [hkeys]
    exact hperm.symm.nodup (List.nodup_dedup _)
  · intro k
    rw [hkeys, hperm.mem_iff, List.mem_dedup]
  · intro kc hkc
    simp only [groupby_size, List.mem_map] at hkc
    obtain ⟨k, _, rfl⟩ := hkc
    rw [List.count_eq_countP, List.countP_map, List.countP_eq_length_filter]
    rfl
  · have hsnd : (groupby_size df f).map Prod.snd
        = (sorted_keys (df.map f)).map fun k => (df.map f).count k := by
      rw [groupby_size, List.map_map]
      exact List.map_congr_left fun a _ => rfl
    rw [hsnd, (hperm.map fun k => (df.map f).count k).sum_eq,
      List.sum_map_count_dedup_eq_length, List.length_map]

/-- Witness for C3 on a two-row table whose rows share the country A. -/
theorem aggregate_count_partition_witness :
    (("A", 2) ∈ groupby_size [mkRow 5 "A" (.num 1) (.num 0), mkRow 6 "A" (.num 2) (.num 0)]
      fun r => r.country)
    ∧ ("A", 2).2 = (([mkRow 5 "A" (.num 1) (.num 0), mkRow 6 "A" (.num 2) (.num 0)].filter
        fun r => r.country == "A").length) :=
  ⟨by decide,
    (aggregate_count_partition [mkRow 5 "A" (.num 1) (.num 0), mkRow 6 "A" (.num 2) (.num 0)]
      (fun r => r.country)).2.2.1 ("A", 2) (by decide)⟩

/-- Claim C4: `topN` sorts primarily by the metric (descending unless
ascending is requested) and breaks ties deterministically by key in
ascending lexicographic order; every returned row comes from the input, at
most n rows are returned, and on two rows tied at count 5 keyed X and Y the
result of `topN 1` is the alphabetically-first key X, whichever order the
input arrives in. -/
theorem topN_sorted_deterministic :
    ∀ (asc : Bool) (agg : List (String × ℚ)) (n : ℕ),
      List.Sorted (tbLe asc) (topN asc agg n)
      ∧ (∀ x, x ∈ topN asc agg n → x ∈ agg)
      ∧ (topN asc agg n).length = min n agg.length
      ∧ topN false [("X", 5), ("Y", 5)] 1 = [("X", 5)]
      ∧ topN false [("Y", 5), ("X", 5)] 1 = [("X", 5)] := by
  intro asc agg n
  refine ⟨?_, ?_, ?_, ?_, ?_⟩
  · exact List.Pairwise.sublist (List.take_sublist _ _)
      (List.sorted_insertionSort (tbLe asc) agg)
  · intro x hx
    exact (List.perm_insertionSort (tbLe asc) agg).subset
      ((List.take_sublist _ _).subset hx)
  · rw [topN, List.length_take, (List.perm_insertionSort (tbLe asc) agg).length_eq]
  · have hxy : ("X" : String) ≤ "Y" := by simp; decide
    simp [topN, List.insertionSort, List.orderedInsert, tbLe, hxy]
  · have hyx : ¬ ("Y" : String) ≤ "X" := by simp; decide
    simp [topN, List.insertionSort, List.orderedInsert, tbLe, hyx]

/-- Witness for C4 on a singleton aggregate table. -/
theorem topN_sorted_deterministic_witness :
    (("A", (3 : ℚ)) ∈ topN false [("A", 3)] 1) ∧ ("A", (3 : ℚ)) ∈ [("A", (3 : ℚ))] :=
  ⟨by decide,
    (topN_sorted_deterministic false [("A", 3)] 1).2.1 ("A", 3) (by decide)⟩

theorem findIdx_key_at (l : List (String × ℚ)) :
    ∀ (i : ℕ) (h : i < l.length) (s : ℕ), ((l.map Prod.fst).Nodup) →
      l.findIdx? (fun x => x.1 == (l.get ⟨i, h⟩).1) s = some (s + i) := by
  induction l with
  | nil => intro i h; exact absurd h (by simp)
  | cons a t ih =>
    intro i h s hnd
    have hnd2 := List.nodup_cons.mp (show (a.1 :: t.map Prod.fst).Nodup from hnd)
    cases i with
    | zero =>
      rw [List.findIdx?_cons]
      simp
    | succ j =>
      have hj : j < t.length := by simpa using h
      have hget : ((a :: t).get ⟨j + 1, h⟩) = t.get ⟨j, hj⟩ := rfl
      have hmem : (t.get ⟨j, hj⟩).1 ∈ t.map Prod.fst :=
        List.mem_map_of_mem _ (t.get_mem _ _)
      have hne : (a.1 == (t.get ⟨j, hj⟩).1) = false :=
        beq_eq_false_iff_ne.mpr fun hEq => hnd2.1 (hEq ▸ hmem)
      rw [List.findIdx?_cons, hget, hne]
      rw [if_neg (by simp)]
      rw [ih j hj (s + 1) hnd2.2]
      congr 1
      omega

/-- Claim C5: `rankOf` returns the 1-based position of an entity in the
full descending-by-metric order when the entity is present and a not-found
result (`none`) when it is absent, and the entity at 0-based position i of
`top_head agg n` has rank exactly i+1. -/
theorem rankOf_consistent_with_top :
    ∀ agg : List (String × ℚ), ((agg.map Prod.fst).Nodup) →
      (∀ e, e ∉ agg.map Prod.fst → rankOf agg e = none)
      ∧ (∀ e, e ∈ agg.map Prod.fst →
          ∃ j, rankOf agg e = some j ∧ 1 ≤ j ∧ j ≤ agg.length)
      ∧ (∀ n i, i < (top_head agg n).length →
          rankOf agg ((top_head agg n).getD i default).1 = some (i + 1)) := by
  intro agg hnd
  have hperm : (sort_desc agg).Perm agg := List.perm_insertionSort _ _
  have hnds : ((sort_desc agg).map Prod.fst).Nodup :=
    (hperm.map Prod.fst).symm.nodup hnd
  refine ⟨?_, ?_, ?_⟩
  · intro e he
    rw [rankOf]
    have hnone : (sort_desc agg).findIdx? (fun x => x.1 == e) = none := by
      rw [List.findIdx?_eq_none_iff]
      intro x hx
      have hmem : x.1 ∈ agg.map Prod.fst := List.mem_map_of_mem _ (hperm.subset hx)
      exact beq_eq_false_iff_ne.mpr fun hEq => he (hEq ▸ hmem)
    rw [hnone]
    rfl
  · intro e he
    have he2 : e ∈ (sort_desc agg).map Prod.fst := by
      rw [(hperm.map Prod.fst).mem_iff]
      exact he
    obtain ⟨⟨i, hi⟩, hgi⟩ := List.mem_iff_get.mp he2
    have hi2 : i < (sort_desc agg).length := by simpa using hi
    have hgi2 : ((sort_desc agg).get ⟨i, hi2⟩).1 = e := by simpa using hgi
    refine ⟨i + 1, ?_, by omega, ?_⟩
    · rw [rankOf]
      have hfi := findIdx_key_at (sort_desc agg) i hi2 0 hnds
      rw [hgi2] at hfi
      rw [hfi]
      simp
    · have hl := hperm.length_eq
      omega
  · intro n i hi
    have hi2 : i < (sort_desc agg).length := by
      rw [top_head, List.length_take] at hi
      exact lt_of_lt_of_le hi (min_le_right _ _)
    have hgd : (top_head agg n).getD i default = (sort_desc agg).get ⟨i, hi2⟩ := by
      rw [List.getD_eq_getElem _ _ hi]
      simp only [top_head, List.getElem_take, List.get_eq_getElem]
    rw [hgd, rankOf, findIdx_key_at (sort_desc agg) i hi2 0 hnds]
    simp

/-- Witness for C5 on a singleton aggregate table: the entity at position 0
of the top-1 has rank 1. -/
theorem rankOf_consistent_with_top_witness :
    (([("A", (3 : ℚ))].map Prod.fst).Nodup
    ∧ 0 < (top_head [("A", (3 : ℚ))] 1).length)
    ∧ rankOf [("A", (3 : ℚ))] ((top_head [("A", (3 : ℚ))] 1).getD 0 default).1 = some 1 :=
  ⟨⟨by decide, by decide⟩,
    (rankOf_consistent_with_top [("A", 3)] (by decide)).2.2 1 0 (by decide)⟩

theorem list_toFinset_sum_count (m : List String) :
    ∑ a ∈ m.toFinset, m.count a = m.length := by
  have h2 : m.dedup.toFinset = m.toFinset := by
    ext x
    simp [List.mem_toFinset, List.mem_dedup]
  rw [← h2, List.sum_toFinset _ (List.nodup_dedup m),
    List.sum_map_count_dedup_eq_length]

/-- Claim C2: in a row-normalized cross-tabulation, every row whose raw
count total is nonzero has percentages across the columns summing to 100
within tolerance 1e-6 (here: exactly 100), and a row whose total is zero
has all percentages exactly 0 — not NaN and not an error. -/
theorem crosstab_row_normalization :
    ∀ (df : List Row) (rowF colF : Row → String) (r : String),
      (row_total df rowF r ≠ 0 →
        |row_pct_sum df rowF colF r - 100| ≤ 1 / 1000000)
      ∧ (row_total df rowF r = 0 → ∀ c, row_pct df rowF colF r c = 0) := by
  intro df rowF colF r
  constructor
  · intro ht
    have hcnt : ∀ c, crosstab_count df rowF colF r c
        = ((df.filter fun x => rowF x == r).map colF).count c := by
      intro c
      rw [crosstab_count, ← List.countP_eq_length_filter, List.count_eq_countP,
        List.countP_map, List.countP_filter]
      refine List.countP_congr fun x _ => ?_
      simp [Function.comp, Bool.and_comm]
    have htot : ((df.filter fun x => rowF x == r).map colF).length
        = row_total df rowF r := by
      simp [row_total]
    have hsub : ((df.filter fun x => rowF x == r).map colF).toFinset
        ⊆ (df.map colF).toFinset := by
      intro x hx
      simp only [List.mem_toFinset] at hx ⊢
      obtain ⟨y, hy, rfl⟩ := List.mem_map.mp hx
      exact List.mem_map_of_mem _ (List.mem_of_mem_filter hy)
    have key : ∑ c ∈ (df.map colF).toFinset,
        ((df.filter fun x => rowF x == r).map colF).count c
        = row_total df rowF r := by
      rw [← Finset.sum_subset hsub fun x _ hx =>
        List.count_eq_zero.mpr (by simpa [List.mem_toFinset] using hx)]
      rw [list_toFinset_sum_count, htot]
    have hconv : row_pct_sum df rowF colF r
        = ∑ c ∈ (df.map colF).toFinset, row_pct df rowF colF r c := by
      rw [row_pct_sum, col_keys, ← List.sum_toFinset _ (List.nodup_dedup _)]
      congr 1
      ext x
      simp [List.mem_toFinset, List.mem_dedup]
    have hcast : ((row_total df rowF r : ℕ) : ℚ) ≠ 0 := Nat.cast_ne_zero.mpr ht
    have hsum : row_pct_sum df rowF colF r = 100 := by
      rw [hconv]
      calc ∑ c ∈ (df.map colF).toFinset, row_pct df rowF colF r c
          = ∑ c ∈ (df.map colF).toFinset,
            (((df.filter fun x => rowF x == r).map colF).count c : ℚ)
              / (row_total df rowF r : ℚ) * 100 := by
            refine Finset.sum_congr rfl fun c _ => ?_
            rw [row_pct, hcnt]
        _ = (∑ c ∈ (df.map colF).toFinset,
            (((df.filter fun x => rowF x == r).map colF).count c : ℚ))
              / (row_total df rowF r : ℚ) * 100 := by
            rw [Finset.sum_div, Finset.sum_mul]
        _ = 100 := by
            rw [← Nat.cast_sum, key, div_self hcast, one_mul]
    rw [hsum]
    norm_num
  · intro ht c
    rw [row_pct, ht]
    simp

/-- Witness for C2 on a one-row table: the country-by-attack-type crosstab
row for A has a nonzero total and its percentages sum to 100. -/
theorem crosstab_row_normalization_witness :
    (row_total [mkRow 5 "A" (.num 1) (.num 0)] (fun r => r.country) "A" ≠ 0)
    ∧ |row_pct_sum [mkRow 5 "A" (.num 1) (.num 0)] (fun r => r.country)
        (fun r => r.attackType) "A" - 100| ≤ 1 / 1000000 :=
  ⟨by decide,
    (crosstab_row_normalization [mkRow 5 "A" (.num 1) (.num 0)]
      (fun r => r.country) (fun r => r.attackType) "A").1 (by decide)⟩

/-- Counterexample for C8: `rank_countries_by_metric` with the Casualties
metric does not leave its input table unchanged — on a one-row table whose
`Killed` fails coercion, the post-call frame has `Killed` overwritten with
0 and a `Casualties` column added. -/
theorem rank_countries_mutates_input :
    (rank_countries_by_metric [mkRow 5 "A" (.str "bad") .na] "Casualties" false).1
      ≠ [mkRow 5 "A" (.str "bad") .na] := by
  intro h
  have h2 := congrArg (fun l => (l.getD 0 default).casualties) h
  simp [rank_countries_by_metric, casualties_col_row, coerce_row, mkRow] at h2

/-- Amended C8: the Attacks ranking leaves its input unchanged; the
Casualties ranking keeps every row and every other field but overwrites
`Killed`/`Wounded` with their coerced values and adds the derived
`Casualties` column to the frame of the caller, returning the ranking as a
separate fresh table. -/
theorem rank_countries_frame_behavior :
    ∀ (df : List Row) (asc : Bool),
      (rank_countries_by_metric df "Attacks" asc).1 = df
      ∧ (rank_countries_by_metric df "Casualties" asc).1.length = df.length
      ∧ ∀ i, i < df.length →
          ((rank_countries_by_metric df "Casualties" asc).1.getD i default).country
            = (df.getD i default).country
          ∧ ((rank_countries_by_metric df "Casualties" asc).1.getD i default).year
            = (df.getD i default).year
          ∧ ((rank_countries_by_metric df "Casualties" asc).1.getD i default).month
            = (df.getD i default).month
          ∧ ((rank_countries_by_metric df "Casualties" asc).1.getD i default).day
            = (df.getD i default).day
          ∧ ((rank_countries_by_metric df "Casualties" asc).1.getD i default).region
            = (df.getD i default).region
          ∧ ((rank_countries_by_metric df "Casualties" asc).1.getD i default).attackType
            = (df.getD i default).attackType
          ∧ ((rank_countries_by_metric df "Casualties" asc).1.getD i default).targetType
            = (df.getD i default).targetType
          ∧ ((rank_countries_by_metric df "Casualties" asc).1.getD i default).weaponType
            = (df.getD i default).weaponType
          ∧ ((rank_countries_by_metric df "Casualties" asc).1.getD i default).group
            = (df.getD i default).group
          ∧ ((rank_countries_by_metric df "Casualties" asc).1.getD i default).decade
            = (df.getD i default).decade
          ∧ ((rank_countries_by_metric df "Casualties" asc).1.getD i default).decadeLabel
            = (df.getD i default).decadeLabel
          ∧ ((rank_countries_by_metric df "Casualties" asc).1.getD i default).season
            = (df.getD i default).season
          ∧ ((rank_countries_by_metric df "Casualties" asc).1.getD i default).killed
            = .num (coerceFill (df.getD i default).killed)
          ∧ ((rank_countries_by_metric df "Casualties" asc).1.getD i default).wounded
            = .num (coerceFill (df.getD i default).wounded)
          ∧ ((rank_countries_by_metric df "Casualties" asc).1.getD i default).casualties
            = some (coerceFill (df.getD i default).killed
                + coerceFill (df.getD i default).wounded) := by
  intro df asc
  refine ⟨by simp [rank_countries_by_metric], ?_, ?_⟩
  · simp [rank_countries_by_metric]
  · intro i hi
    have hfr : (rank_countries_by_metric df "Casualties" asc).1
        = df.map fun r => casualties_col_row (coerce_row r) := by
      simp [rank_countries_by_metric]
    rw [hfr, getD_map_of_lt _ df i hi]
    refine ⟨rfl, rfl, rfl, rfl, rfl, rfl, rfl, rfl, rfl, rfl, rfl, rfl, rfl, rfl, rfl⟩

/-- Witness for the amended C8 on a one-row table. -/
theorem rank_countries_frame_behavior_witness :
    (0 < ([mkRow 5 "A" .na (.num 2)] : List Row).length)
    ∧ ((rank_countries_by_metric [mkRow 5 "A" .na (.num 2)] "Casualties" false).1.getD
        0 default).country = (([mkRow 5 "A" .na (.num 2)] : List Row).getD 0 default).country :=
  ⟨by decide,
    ((rank_countries_frame_behavior [mkRow 5 "A" .na (.num 2)] false).2.2 0 (by decide)).1⟩
